/-
Verification of the MLB-Stats missed-call engine (src/get/umpire.py) and the
scoreboard diff logic (src/get/scoreboard_data.py), via a shallow embedding.

Conventions of the embedding:
* Python floats are modelled as rationals (ℚ); Python ints as Int.
* Fallible Python code (raise) is modelled with `Except PyErr`.
* The run-expectancy-difference table `Umpire.rednp` is an external 4-D numpy
  array of shape [4][3][3][8]; it is modelled as a function parameter
  `rednp : Fin 4 → Fin 3 → Fin 3 → Fin 8 → ℚ`, and numpy's integer indexing
  semantics (negative indices wrap once; otherwise IndexError) are modelled
  by `npIndex`.
* The ambient randomness of the Monte-Carlo strategy
  (`_generage_random_pitch_location`) is modelled as an injected family of
  500 offset draws `(dx, dz)`, matching `rand_x = pX + dx, rand_z = pZ + dz`.
-/
import Mathlib

set_option maxHeartbeats 1000000

/-- Python exception classes that the embedded code can raise. -/
inductive PyErr where
  | valueError (msg : String)
  | typeError (msg : String)
  | attributeError (msg : String)
  | indexError
  deriving DecidableEq, Repr

/-- Modelled from the spec: get/game.py is not under src/. Per §6 the per-pitch
coordinates record is `{pX, pZ, pZ_top, pZ_bot, PX_MIN, PX_MAX}` together with a
location-validity test `is_valid()` (spec §3 `isValidLocation : bool`), which we
store as a boolean field. -/
structure Coordinates where
  pX : ℚ
  pZ : ℚ
  pZ_top : ℚ
  pZ_bot : ℚ
  PX_MIN : ℚ
  PX_MAX : ℚ
  is_valid : Bool
  deriving DecidableEq, Repr

/-- Modelled from the spec: get/game.py is not under src/. Per §6 `pitchData`
holds the coordinates and the source-provided `zone : int`. -/
structure PitchData where
  coordinates : Coordinates
  zone : Int
  deriving DecidableEq, Repr

/-- Modelled from the spec: per-pitch `details.code ∈ \x7b"C","B",...\x7d`; a pitch
may lack a code (Python None), hence `Option`. -/
structure Details where
  code : Option String
  deriving DecidableEq, Repr

/-- Modelled from the spec: the count attached to a pitch record,
`\x7bballs, strikes, outs\x7d` (§3, §6); Python ints. -/
structure Count where
  balls : Int
  strikes : Int
  outs : Int
  deriving DecidableEq, Repr

/-- Modelled from the spec: get/game.py (class PlayEvents) is not under src/.
Fields follow the per-pitch schema of §6; `pitchData` is `Option` because the
evaluator checks `pitch.pitchData is None`.  `PX_MIN`/`PX_MAX` are also exposed
at pitch level (used by `_is_correct_call_monte_carlo` as `pitch.PX_MIN`),
modelling the fixed horizontal half-width of §4.3 Strategy B. -/
structure PlayEvents where
  count : Count
  details : Details
  pitchData : Option PitchData
  PX_MIN : ℚ
  PX_MAX : ℚ
  deriving DecidableEq, Repr

/-- Modelled from the spec: get/runners.py is not under src/. Per §3 a
RunnerState is an ordered triple of booleans (onFirst, onSecond, onThird). -/
structure Runners where
  onFirst : Bool
  onSecond : Bool
  onThird : Bool
  deriving DecidableEq, Repr

/-- Modelled from the spec: `asInt()` returns the 3-bit encoding of §3
(first = bit0, second = bit1, third = bit2); this is `int(runners)` in the
strategy methods. -/
def Runners.asInt (r : Runners) : Int :=
  (if r.onFirst then 1 else 0) + (if r.onSecond then 2 else 0)
    + (if r.onThird then 4 else 0)

/-- src/get/umpire.py line 14: `BUFFER_INCH = .350`. -/
def BUFFER_INCH : ℚ := 350 / 1000

/-- src/get/umpire.py line 15: `BUFFER_FEET = BUFFER_INCH / 12`. -/
def BUFFER_FEET : ℚ := BUFFER_INCH / 12

/-- Numpy integer indexing into an axis of length `n`: indices in `[0, n)` are
used directly, indices in `[-n, 0)` wrap once from the end, anything else is an
IndexError (modelled as `none`). -/
def npIndex (n : Nat) (i : Int) : Option (Fin n) :=
  if h : 0 ≤ i ∧ i < (n : Int) then some ⟨i.toNat, by omega⟩
  else if h' : -(n : Int) ≤ i ∧ i < 0 then some ⟨(i + (n : Int)).toNat, by omega⟩
  else none

/-- A lookup `Umpire.rednp[b][s][o][r]` into the 4-D run-expectancy-difference
table (shape [4][3][3][8], spec §6), under numpy indexing semantics. -/
def tableLookup (rednp : Fin 4 → Fin 3 → Fin 3 → Fin 8 → ℚ)
    (b s o r : Int) : Except PyErr ℚ :=
  match npIndex 4 b, npIndex 3 s, npIndex 3 o, npIndex 8 r with
  | some bi, some si, some oi, some ri => .ok (rednp bi si oi ri)
  | _, _, _, _ => .error .indexError

/-- The index tuple of the called-strike delta lookup,
src/get/umpire.py line 236 / 387: `rednp[balls][strikes-1][outs][runners]`. -/
def strike_call_indices (pitch : PlayEvents) (runners : Int) :
    Int × Int × Int × Int :=
  (pitch.count.balls, pitch.count.strikes - 1, pitch.count.outs, runners)

/-- The index tuple of the called-ball delta lookup,
src/get/umpire.py line 240 / 390: `rednp[balls-1][strikes][outs][runners]`. -/
def ball_call_indices (pitch : PlayEvents) (runners : Int) :
    Int × Int × Int × Int :=
  (pitch.count.balls - 1, pitch.count.strikes, pitch.count.outs, runners)

/-- `tableLookup` applied to an index tuple. -/
def tableLookup4 (rednp : Fin 4 → Fin 3 → Fin 3 → Fin 8 → ℚ)
    (ix : Int × Int × Int × Int) : Except PyErr ℚ :=
  tableLookup rednp ix.1 ix.2.1 ix.2.2.1 ix.2.2.2

/-- src/get/umpire.py lines 397-404, `Umpire._is_correct_call_zone_num`.
Python short-circuiting: `pitch.pitchData.zone` is only evaluated when the
matching code comparison succeeds; if `pitchData` is None that attribute access
raises AttributeError. -/
def is_correct_call_zone_num (pitch : PlayEvents) : Except PyErr Bool :=
  if pitch.details.code = some "C" then
    match pitch.pitchData with
    | none => .error (.attributeError "NoneType object has no attribute zone")
    | some pd => if pd.zone > 10 then .ok false else .ok true
  else if pitch.details.code = some "B" then
    match pitch.pitchData with
    | none => .error (.attributeError "NoneType object has no attribute zone")
    | some pd => if 1 ≤ pd.zone ∧ pd.zone ≤ 9 then .ok false else .ok true
  else .ok true

/-- src/get/umpire.py lines 435-468, `Umpire._in_buffer_zone`, as a predicate on
the coordinates record (the source reads every value from
`pitch.pitchData.coordinates`). -/
def in_buffer_zone (c : Coordinates) : Bool :=
  -- the local alias `buf = BUFFER_FEET` of line 437 is inlined
  -- left zone
  if (c.PX_MIN - BUFFER_FEET ≤ c.pX ∧ c.pX ≤ c.PX_MIN + BUFFER_FEET) ∧
     (c.pZ_bot - BUFFER_FEET ≤ c.pZ ∧ c.pZ ≤ c.pZ_top + BUFFER_FEET) then true
  -- right zone
  else if (c.PX_MAX - BUFFER_FEET ≤ c.pX ∧ c.pX ≤ c.PX_MAX + BUFFER_FEET) ∧
     (c.pZ_bot - BUFFER_FEET ≤ c.pZ ∧ c.pZ ≤ c.pZ_top + BUFFER_FEET) then true
  -- top zone
  else if (c.pZ_top - BUFFER_FEET ≤ c.pZ ∧ c.pZ ≤ c.pZ_top + BUFFER_FEET) ∧
     (c.PX_MIN - BUFFER_FEET ≤ c.pX ∧ c.pX ≤ c.PX_MAX + BUFFER_FEET) then true
  -- bottom zone
  else if (c.pZ_bot - BUFFER_FEET ≤ c.pZ ∧ c.pZ ≤ c.pZ_bot + BUFFER_FEET) ∧
     (c.PX_MIN - BUFFER_FEET ≤ c.pX ∧ c.pX ≤ c.PX_MAX + BUFFER_FEET) then true
  else false

/-- src/get/umpire.py lines 407-432, `Umpire._is_correct_call_monte_carlo`.
The 500 random draws of `_generage_random_pitch_location` are injected as
offsets `draws i = (dx, dz)` with candidate location `(pX + dx, pZ + dz)`.
The zone test uses the pitch-level `PX_MIN`/`PX_MAX` (source lines 413-414)
and the coordinate-level vertical bounds (lines 415-416). -/
def is_correct_call_monte_carlo (draws : Fin 500 → ℚ × ℚ)
    (pitch : PlayEvents) : Except PyErr Bool :=
  match pitch.pitchData with
  | none => .error (.attributeError "NoneType object has no attribute coordinates")
  | some pd =>
    let pX_left := pitch.PX_MIN
    let pX_right := pitch.PX_MAX
    let pZ_top := pd.coordinates.pZ_top
    let pZ_bot := pd.coordinates.pZ_bot
    let strike : Nat := (Finset.univ.filter (fun i : Fin 500 =>
      let rand_x := pd.coordinates.pX + (draws i).1
      let rand_z := pd.coordinates.pZ + (draws i).2
      pX_left ≤ rand_x ∧ rand_x ≤ pX_right ∧
        pZ_bot ≤ rand_z ∧ rand_z ≤ pZ_top)).card
    let ball : Nat := 500 - strike
    let total : Nat := ball + strike
    if pitch.details.code = some "B" ∧ (strike : ℚ) / (total : ℚ) > 90 / 100 then
      .ok false
    else if pitch.details.code = some "C" ∧ (ball : ℚ) / (total : ℚ) > 90 / 100 then
      .ok false
    else .ok true

/-- src/get/umpire.py lines 219-244: the body of `Umpire.delta_favor_zone`
after its argument validation, with `runners` already the integer encoding. -/
def zoneEval (rednp : Fin 4 → Fin 3 → Fin 3 → Fin 8 → ℚ)
    (pitch : PlayEvents) (isTopInning : Bool) (runners : Int) :
    Except PyErr ℚ :=
  match (if pitch.details.code = some "C" ∨ pitch.details.code = some "B" then
           is_correct_call_zone_num pitch
         else .ok true) with
  | .error e => .error e
  | .ok true => .ok 0
  | .ok false =>
    let lookup : Except PyErr ℚ :=
      if pitch.details.code = some "C" then
        -- Ball called Strike: home_delta += rednp[balls][strikes-1][outs][runners]
        tableLookup4 rednp (strike_call_indices pitch runners)
      else if pitch.details.code = some "B" then
        -- Strike called Ball: home_delta -= rednp[balls-1][strikes][outs][runners]
        (tableLookup4 rednp (ball_call_indices pitch runners)).map (fun v => -v)
      else .ok 0
    match lookup with
    | .error e => .error e
    | .ok home_delta => .ok (if isTopInning then home_delta else -home_delta)

/-- src/get/umpire.py lines 170-244, `Umpire.delta_favor_zone`.  In the typed
embedding `runners_int : Option Int`, so the source check
`isinstance(runners_int, int) is False and runners_int is not None` (line 211)
never fires, and `isTopInning : Bool` makes the line-213 check pass. -/
def delta_favor_zone (rednp : Fin 4 → Fin 3 → Fin 3 → Fin 8 → ℚ)
    (pitch : PlayEvents) (isTopInning : Bool)
    (runners : Option Runners) (runners_int : Option Int) : Except PyErr ℚ :=
  match runners, runners_int with
  | none, none => .error (.valueError "No runners_int or runners argument provided")
  | some r, _ => zoneEval rednp pitch isTopInning r.asInt
  | none, some k => zoneEval rednp pitch isTopInning k

/-- src/get/umpire.py lines 297-308: the body of `Umpire.delta_favor_dist`
after its argument validation, with `runners` already the integer encoding. -/
def distEval (rednp : Fin 4 → Fin 3 → Fin 3 → Fin 8 → ℚ)
    (pitch : PlayEvents) (isTopInning : Bool) (runners : Int) :
    Except PyErr ℚ :=
  match pitch.pitchData with
  | none => .ok 0
  | some pd =>
    if pd.coordinates.is_valid = false then .ok 0
    else if in_buffer_zone pd.coordinates = true then .ok 0
    else delta_favor_zone rednp pitch isTopInning none (some runners)

/-- src/get/umpire.py lines 247-308, `Umpire.delta_favor_dist`.  As in
`delta_favor_zone`, the typed `runners_int : Option Int` makes the line-289
isinstance check a no-op and `isTopInning : Bool` the line-291 check. -/
def delta_favor_dist (rednp : Fin 4 → Fin 3 → Fin 3 → Fin 8 → ℚ)
    (pitch : PlayEvents) (isTopInning : Bool)
    (runners : Option Runners) (runners_int : Option Int) : Except PyErr ℚ :=
  match runners, runners_int with
  | none, none => .error (.valueError "runners and runners_int were not provided")
  | some r, _ => distEval rednp pitch isTopInning r.asInt
  | none, some k => distEval rednp pitch isTopInning k

/-- src/get/umpire.py lines 363-394: the body of `Umpire.delta_favor_monte`
after its argument validation, with `runners` already the integer encoding. -/
def monteEval (rednp : Fin 4 → Fin 3 → Fin 3 → Fin 8 → ℚ)
    (draws : Fin 500 → ℚ × ℚ) (pitch : PlayEvents) (isTopInning : Bool)
    (runners : Int) : Except PyErr ℚ :=
  match pitch.pitchData with
  | none => .ok 0
  | some pd =>
    if pd.coordinates.is_valid = false then .ok 0
    else
      match (if pitch.details.code = some "C" ∨ pitch.details.code = some "B" then
               is_correct_call_monte_carlo draws pitch
             else .ok true) with
      | .error e => .error e
      | .ok true => .ok 0
      | .ok false =>
        let lookup : Except PyErr ℚ :=
          if pitch.details.code = some "C" then
            tableLookup4 rednp (strike_call_indices pitch runners)
          else if pitch.details.code = some "B" then
            (tableLookup4 rednp (ball_call_indices pitch runners)).map (fun v => -v)
          else .ok 0
        match lookup with
        | .error e => .error e
        | .ok home_delta => .ok (if isTopInning then home_delta else -home_delta)

/-- src/get/umpire.py lines 311-394, `Umpire.delta_favor_monte`: argument
validation, then `monteEval` on the integer runner encoding.  The line-355
check is `isinstance(runners_int, int) is False` WITHOUT the
`and runners_int is not None` conjunct its siblings have, so it raises
TypeError whenever `runners_int` is None — even when a valid `runners` object
was supplied (second pattern below). -/
def delta_favor_monte (rednp : Fin 4 → Fin 3 → Fin 3 → Fin 8 → ℚ)
    (draws : Fin 500 → ℚ × ℚ) (pitch : PlayEvents) (isTopInning : Bool)
    (runners : Option Runners) (runners_int : Option Int) : Except PyErr ℚ :=
  match runners, runners_int with
  | none, none => .error (.valueError "runners and runners_int were not provided")
  | _, none => .error (.typeError "runners_int should be type int")
  | some r, some _ => monteEval rednp draws pitch isTopInning r.asInt
  | none, some k => monteEval rednp draws pitch isTopInning k

/-- Modelled from the spec: get/game.py is not under src/. Per §6 an at-bat
record carries `about.isTopInning`, the `pitchIndex` list of indices into
`playEvents`, and the `playEvents` list itself. -/
structure AllPlays where
  isTopInning : Bool
  pitchIndex : List Nat
  playEvents : List PlayEvents

/-- src/get/umpire.py lines 106-118: the inner pitch loop of
`find_missed_calls` for one at-bat, returning the accumulated home favor and
the missed-call list in chronological order.  `runners` is constant within an
at-bat (the tracker is only advanced between at-bats). -/
def evalPitches (rednp : Fin 4 → Fin 3 → Fin 3 → Fin 8 → ℚ)
    (r : Runners) (isTopInning : Bool) (events : List PlayEvents) :
    List Nat → Except PyErr (ℚ × List PlayEvents)
  | [] => .ok (0, [])
  | i :: rest =>
    match events[i]? with
    | none => .error .indexError
    | some pitch =>
      match delta_favor_dist rednp pitch isTopInning (some r) none with
      | .error e => .error e
      | .ok home_delta =>
        match evalPitches rednp r isTopInning events rest with
        | .error e => .error e
        | .ok (favor, calls) =>
          if home_delta ≠ 0 then .ok (home_delta + favor, pitch :: calls)
          else .ok (favor, calls)

/-- src/get/umpire.py lines 102-120: the at-bat loop of `find_missed_calls`,
threading the runner tracker through `new_batter` / `end_batter` (those two
transitions live in the absent get/runners.py and are taken as parameters). -/
def fmcGo (rednp : Fin 4 → Fin 3 → Fin 3 → Fin 8 → ℚ)
    (nb eb : Runners → AllPlays → Runners) (r : Runners) :
    List AllPlays → Except PyErr (ℚ × List PlayEvents)
  | [] => .ok (0, [])
  | ab :: rest =>
    let r1 := nb r ab
    match evalPitches rednp r1 ab.isTopInning ab.playEvents ab.pitchIndex with
    | .error e => .error e
    | .ok (favor, calls) =>
      match fmcGo rednp nb eb (eb r1 ab) rest with
      | .error e => .error e
      | .ok (favor', calls') => .ok (favor + favor', calls ++ calls')

/-- src/get/umpire.py lines 60-122, `Umpire.find_missed_calls` (the evaluation
core, after game resolution): starts from a fresh `Runners()` (no runners,
spec §4.1) and returns `(len(missed_calls), home_favor, missed_calls)`. -/
def find_missed_calls (rednp : Fin 4 → Fin 3 → Fin 3 → Fin 8 → ℚ)
    (nb eb : Runners → AllPlays → Runners) (allPlays : List AllPlays) :
    Except PyErr (Nat × ℚ × List PlayEvents) :=
  match fmcGo rednp nb eb ⟨false, false, false⟩ allPlays with
  | .error e => .error e
  | .ok (home_favor, missed_calls) =>
    .ok (missed_calls.length, home_favor, missed_calls)

/-- Specification-side view of one at-bat: the chronological list of
(pitch, isTopInning, runner state) contexts named by `pitchIndex`, or `none`
if some index is out of range. -/
def ctxList (events : List PlayEvents) (isTop : Bool) (r : Runners) :
    List Nat → Option (List (PlayEvents × Bool × Runners))
  | [] => some []
  | i :: rest =>
    match events[i]? with
    | none => none
    | some p =>
      match ctxList events isTop r rest with
      | none => none
      | some l => some ((p, isTop, r) :: l)

/-- Specification-side view of the pitch stream of a game: the chronological
list of (pitch, isTopInning, runner state) contexts that `find_missed_calls`
evaluates, or `none` if some `pitchIndex` entry is out of range. -/
def pitchStream (nb eb : Runners → AllPlays → Runners) (r : Runners) :
    List AllPlays → Option (List (PlayEvents × Bool × Runners))
  | [] => some []
  | ab :: rest =>
    match ctxList ab.playEvents ab.isTopInning (nb r ab) ab.pitchIndex with
    | none => none
    | some here =>
      match pitchStream nb eb (eb (nb r ab) ab) rest with
      | none => none
      | some there => some (here ++ there)

/-- src/get/scoreboard_data.py lines 8-25: the fixed field schema. -/
def sbKeys : List String :=
  ["abstractGameState", "abstractGameCode", "detailedState", "codedGameState",
   "delay_seconds", "statusCode", "game_state", "away_abv", "home_abv",
   "away_score", "home_score", "start_time", "inning", "inning_state",
   "outs", "runners", "umpire", "gamepk"]

/-- A snapshot over the fixed schema: each key holds a value or Python None. -/
def SB (V : Type) : Type := String → Option V

/-- `setattr` on a snapshot. -/
def setK {V : Type} (s : SB V) (k : String) (v : Option V) : SB V :=
  fun k' => if k' = k then v else s k'

/-- src/get/scoreboard_data.py lines 79-87: one iteration of the diff loop.
State is (self, differences, new_info). -/
def diffStep {V : Type} [DecidableEq V] (new_game : SB V)
    (st : SB V × SB V × Bool) (k : String) : SB V × SB V × Bool :=
  -- old_value = st.1 k (line 80), new_value = new_game k (line 81)
  if st.1 k ≠ new_game k then
    (setK st.1 k (new_game k), setK st.2.1 k (new_game k), true)
  else
    (st.1, setK st.2.1 k none, st.2.2)

/-- src/get/scoreboard_data.py lines 71-89, `ScoreboardData.update_and_return_new`.
The freshly fetched snapshot (`new_game`, line 72) is passed in as an argument;
`differences` starts as a deep copy of `self` (line 75) and `new_info` as False.
The source returns `(differences, new_info)` and mutates `self` in place; the
embedding returns the mutated `self` as the first component. -/
def update_and_return_new {V : Type} [DecidableEq V] (self new_game : SB V) :
    SB V × SB V × Bool :=
  sbKeys.foldl (diffStep new_game) (self, self, false)

/-- src/get/scoreboard_data.py lines 91-99, `ScoreboardData.to_dict`: keys with
a non-None value, in schema order (Python dicts preserve insertion order). -/
def to_dict {V : Type} (s : SB V) : List (String × V) :=
  sbKeys.foldl (fun d k =>
    match s k with
    | some v => d ++ [(k, v)]
    | none => d) []

/-- src/get/umpire.py lines 24-26: the parameter names accepted by
`Umpire.__init__` (besides `self`). -/
def umpireInitParamNames : List String := ["gamePk", "game"]

/-- The attribute (method) names defined on the `Umpire` class in
src/get/umpire.py. -/
def umpireMethodNames : List String :=
  ["set", "find_missed_calls", "delta_favor_zone", "delta_favor_dist",
   "delta_favor_monte"]

/-- Python call binding for keyword arguments: a keyword not among the callee
parameter names raises `TypeError: unexpected keyword argument`. -/
def callKwargs (params : List String) (kwargs : List String) :
    Except PyErr Unit :=
  if kwargs.all (fun k => params.contains k) then .ok ()
  else .error (.typeError "unexpected keyword argument")

/-- Python attribute access on an object of known class: a missing attribute
raises AttributeError. -/
def getAttr (attrs : List String) (a : String) : Except PyErr Unit :=
  if attrs.contains a then .ok () else .error (.attributeError a)

/-- src/get/scoreboard_data.py lines 66-69: the umpire-favor step of
`ScoreboardData.__init__`.  Line 67 calls
`Umpire(gamepk=self.gamepk, delay_seconds=self.delay_seconds)` and line 68
calls `umpire.calculate(...)`; both names are checked against the actual
`Umpire` class of src/get/umpire.py. -/
def scoreboard_umpire_step : Except PyErr String :=
  match callKwargs umpireInitParamNames ["gamepk", "delay_seconds"] with
  | .error e => .error e
  | .ok _ =>
    match getAttr umpireMethodNames "calculate" with
    | .error e => .error e
    | .ok _ => .ok "favor summary"

/-- Modelled from the spec: get/game.py is not under src/.  The live game
state consumed by `ScoreboardData.__init__` (spec §6: status strings, team
abbreviations, score, start time, inning, half flag, outs, offense snapshot);
the fetch `Game.get_game_from_pk` is assumed to have succeeded. -/
structure LiveGameState where
  abstractGameState : String
  abstractGameCode : String
  detailedState : String
  codedGameState : String
  statusCode : String
  game_state : String
  away_abv : String
  home_abv : String
  away_score : Int
  home_score : Int
  startTime : String
  currentInning : Int
  isTopInning : Bool
  outs : Int
  offense : Runners

/-- The populated field record of a `ScoreboardData` object. -/
structure SBRecord where
  gamepk : Int
  delay_seconds : Int
  abstractGameState : String
  abstractGameCode : String
  detailedState : String
  codedGameState : String
  statusCode : String
  game_state : String
  away_abv : String
  home_abv : String
  away_score : Int
  home_score : Int
  start_time : String
  inning : Int
  inning_state : String
  outs : Int
  runners : Int
  umpire : String

/-- src/get/scoreboard_data.py lines 27-69, `ScoreboardData.__init__`, given an
already fetched game state `g`.  Lines 34-64 populate the plain fields; the
umpire step (lines 66-69) then runs `scoreboard_umpire_step`. -/
def ScoreboardData_init (gamepk delay_seconds : Int) (g : LiveGameState) :
    Except PyErr SBRecord :=
  let inning_state : String := if g.isTopInning = true then "T" else "B"
  let runners : Int := (Runners.mk g.offense.onFirst g.offense.onSecond
    g.offense.onThird).asInt
  match scoreboard_umpire_step with
  | .error e => .error e
  | .ok ump =>
    .ok { gamepk := gamepk, delay_seconds := delay_seconds,
          abstractGameState := g.abstractGameState,
          abstractGameCode := g.abstractGameCode,
          detailedState := g.detailedState,
          codedGameState := g.codedGameState,
          statusCode := g.statusCode,
          game_state := g.game_state,
          away_abv := g.away_abv, home_abv := g.home_abv,
          away_score := g.away_score, home_score := g.home_score,
          start_time := g.startTime,
          inning := g.currentInning,
          inning_state := inning_state,
          outs := g.outs,
          runners := runners,
          umpire := ump }

/-- Overshoot of `x` past the closed interval `[lo, hi]` (0 if inside). -/
def overshoot (lo hi x : ℚ) : ℚ := max 0 (max (lo - x) (x - hi))

/-- Squared Euclidean distance from the pitch location to the left edge
segment of the strike zone. -/
def distSqLeftEdge (c : Coordinates) : ℚ :=
  (c.pX - c.PX_MIN) ^ 2 + (overshoot c.pZ_bot c.pZ_top c.pZ) ^ 2

/-- Squared Euclidean distance from the pitch location to the right edge
segment of the strike zone. -/
def distSqRightEdge (c : Coordinates) : ℚ :=
  (c.pX - c.PX_MAX) ^ 2 + (overshoot c.pZ_bot c.pZ_top c.pZ) ^ 2

/-- Squared Euclidean distance from the pitch location to the top edge
segment of the strike zone. -/
def distSqTopEdge (c : Coordinates) : ℚ :=
  (overshoot c.PX_MIN c.PX_MAX c.pX) ^ 2 + (c.pZ - c.pZ_top) ^ 2

/-- Squared Euclidean distance from the pitch location to the bottom edge
segment of the strike zone. -/
def distSqBottomEdge (c : Coordinates) : ℚ :=
  (overshoot c.PX_MIN c.PX_MAX c.pX) ^ 2 + (c.pZ - c.pZ_bot) ^ 2

/-- The pitch location lies strictly within `BUFFER_FEET` (Euclidean distance)
of at least one of the four strike-zone edge segments. -/
def strictlyWithinBufferOfEdge (c : Coordinates) : Prop :=
  distSqLeftEdge c < BUFFER_FEET ^ 2 ∨ distSqRightEdge c < BUFFER_FEET ^ 2 ∨
    distSqTopEdge c < BUFFER_FEET ^ 2 ∨ distSqBottomEdge c < BUFFER_FEET ^ 2

instance (c : Coordinates) : Decidable (strictlyWithinBufferOfEdge c) := by
  unfold strictlyWithinBufferOfEdge
  infer_instance

/-- A constant run-expectancy-difference table used for concrete evaluations. -/
def rednpConst1 : Fin 4 → Fin 3 → Fin 3 → Fin 8 → ℚ := fun _ _ _ _ => 1

/-- A table whose entry records its strike index, exposing which strike row a
lookup actually read. -/
def rednpStrikeRow : Fin 4 → Fin 3 → Fin 3 → Fin 8 → ℚ := fun _ s _ _ => (s : ℚ)

/-- A well-formed strike-zone coordinate record with the pitch located far
above the zone (pZ = 5 against a top edge at 7/2). -/
def farCoords : Coordinates :=
  { pX := 0, pZ := 5, pZ_top := 7 / 2, pZ_bot := 3 / 2,
    PX_MIN := -83 / 100, PX_MAX := 83 / 100, is_valid := true }

/-- The same record flagged as an invalid location. -/
def invalidCoords : Coordinates :=
  { pX := 0, pZ := 5, pZ_top := 7 / 2, pZ_bot := 3 / 2,
    PX_MIN := -83 / 100, PX_MAX := 83 / 100, is_valid := false }

/-- A coordinate record whose location sits exactly on the left zone edge. -/
def onLeftEdgeCoords : Coordinates :=
  { pX := -83 / 100, pZ := 2, pZ_top := 7 / 2, pZ_bot := 3 / 2,
    PX_MIN := -83 / 100, PX_MAX := 83 / 100, is_valid := true }

/-- A pitch that is not a ball/strike decision (code None), valid location. -/
def pitchNoCode : PlayEvents :=
  { count := ⟨1, 1, 1⟩, details := ⟨none⟩, pitchData := some ⟨farCoords, 12⟩,
    PX_MIN := -83 / 100, PX_MAX := 83 / 100 }

/-- A called strike with no pitch data at all. -/
def pitchMissingData : PlayEvents :=
  { count := ⟨1, 1, 1⟩, details := ⟨some "C"⟩, pitchData := none,
    PX_MIN := -83 / 100, PX_MAX := 83 / 100 }

/-- A called strike outside the zone (zone 11) whose location is invalid. -/
def pitchInvalidLoc : PlayEvents :=
  { count := ⟨0, 1, 0⟩, details := ⟨some "C"⟩,
    pitchData := some ⟨invalidCoords, 11⟩,
    PX_MIN := -83 / 100, PX_MAX := 83 / 100 }

/-- A called strike outside the zone with a 0-0-0 count (strikes = 0). -/
def pitchCzeroStrikes : PlayEvents :=
  { count := ⟨0, 0, 0⟩, details := ⟨some "C"⟩,
    pitchData := some ⟨farCoords, 11⟩,
    PX_MIN := -83 / 100, PX_MAX := 83 / 100 }

/-- A called strike with zone number exactly 10. -/
def pitchZone10 : PlayEvents :=
  { count := ⟨0, 1, 0⟩, details := ⟨some "C"⟩,
    pitchData := some ⟨farCoords, 10⟩,
    PX_MIN := -83 / 100, PX_MAX := 83 / 100 }

/-- A called strike with zone number 11 (outside the zone), far location,
count 1-1 with 1 out (the spec §8 scenario). -/
def pitchScenario : PlayEvents :=
  { count := ⟨1, 1, 1⟩, details := ⟨some "C"⟩,
    pitchData := some ⟨farCoords, 11⟩,
    PX_MIN := -83 / 100, PX_MAX := 83 / 100 }

/-- A called strike outside the zone whose location is exactly on the left
edge (inside the grace band), count 1-1, 1 out. -/
def pitchOnEdge : PlayEvents :=
  { count := ⟨1, 1, 1⟩, details := ⟨some "C"⟩,
    pitchData := some ⟨onLeftEdgeCoords, 11⟩,
    PX_MIN := -83 / 100, PX_MAX := 83 / 100 }

/-- A non-decision pitch with no pitch data. -/
def pitchNoCallNoData : PlayEvents :=
  { count := ⟨1, 1, 1⟩, details := ⟨none⟩, pitchData := none,
    PX_MIN := -83 / 100, PX_MAX := 83 / 100 }

/-- The empty-bases runner object `Runners()`. -/
def runnersEmpty : Runners := ⟨false, false, false⟩

/-- A degenerate family of Monte-Carlo offset draws (all at the recorded
location). -/
def drawsZero : Fin 500 → ℚ × ℚ := fun _ => (0, 0)

/-- C1: with a valid Runners object and no integer encoding, the zone and
distance strategies evaluate without a type error, but `delta_favor_monte`
raises `TypeError: runners_int should be type int` — its line-355 check
`isinstance(runners_int, int) is False` lacks the `and runners_int is not
None` conjunct of its siblings, so it fires whenever `runners_int` is None.
This contradicts the claim (and the method's own ValueError guard, which
admits a runners-only call). -/
theorem claim_C1_monte_rejects_runners_object :
    delta_favor_zone rednpConst1 pitchNoCode true (some runnersEmpty) none
        = .ok 0
  ∧ delta_favor_dist rednpConst1 pitchNoCode true (some runnersEmpty) none
        = .ok 0
  ∧ delta_favor_monte rednpConst1 drawsZero pitchNoCode true
        (some runnersEmpty) none
        = .error (.typeError "runners_int should be type int") := by
  refine ⟨rfl, ?_, rfl⟩
  have hbuf : in_buffer_zone farCoords = false := by
    norm_num [in_buffer_zone, farCoords, BUFFER_FEET, BUFFER_INCH]
  simp [delta_favor_dist, distEval, delta_favor_zone, zoneEval,
    is_correct_call_zone_num, pitchNoCode, farCoords, hbuf]

/-- C2: constructing a ScoreboardData never succeeds.  Line 67 of
src/get/scoreboard_data.py calls `Umpire(gamepk=..., delay_seconds=...)`, but
`Umpire.__init__` (src/get/umpire.py lines 24-26) accepts only `gamePk` and
`game`, so Python raises `TypeError: unexpected keyword argument` before any
umpire summary can be produced (and even past that, line 68 would hit a
missing `calculate` attribute).  This contradicts the claim that construction
succeeds and populates every schema field. -/
theorem claim_C2_init_always_raises (gamepk delay_seconds : Int)
    (g : LiveGameState) :
    ScoreboardData_init gamepk delay_seconds g
      = .error (.typeError "unexpected keyword argument") := rfl

/-- Every `npIndex` within `[0, n)` resolves without wrapping. -/
theorem npIndex_of_nonneg (n : Nat) (i : Int) (h0 : 0 ≤ i)
    (h1 : i < (n : Int)) : ∃ j : Fin n, npIndex n i = some j := by
  unfold npIndex
  rw [dif_pos ⟨h0, h1⟩]
  exact ⟨_, rfl⟩

/-- A table lookup with all four indices in the strict (non-wrapping) domain
succeeds. -/
theorem tableLookup_ok (rednp : Fin 4 → Fin 3 → Fin 3 → Fin 8 → ℚ)
    (b s o r : Int) (hb : 0 ≤ b ∧ b < 4) (hs : 0 ≤ s ∧ s < 3)
    (ho : 0 ≤ o ∧ o < 3) (hr : 0 ≤ r ∧ r < 8) :
    ∃ q, tableLookup rednp b s o r = .ok q := by
  obtain ⟨bi, hbi⟩ := npIndex_of_nonneg 4 b hb.1 (by exact_mod_cast hb.2)
  obtain ⟨si, hsi⟩ := npIndex_of_nonneg 3 s hs.1 (by exact_mod_cast hs.2)
  obtain ⟨oi, hoi⟩ := npIndex_of_nonneg 3 o ho.1 (by exact_mod_cast ho.2)
  obtain ⟨ri, hri⟩ := npIndex_of_nonneg 8 r hr.1 (by exact_mod_cast hr.2)
  unfold tableLookup
  rw [hbi, hsi, hoi, hri]
  exact ⟨_, rfl⟩

/-- `_is_correct_call_zone_num` can only fail with an AttributeError. -/
theorem is_correct_call_zone_num_error (pitch : PlayEvents) (e : PyErr)
    (h : is_correct_call_zone_num pitch = .error e) :
    ∃ m, e = .attributeError m := by
  unfold is_correct_call_zone_num at h
  split at h
  · split at h
    · injection h with h
      exact ⟨_, h.symm⟩
    · split at h <;> cases h
  · split at h
    · split at h
      · injection h with h
        exact ⟨_, h.symm⟩
      · split at h <;> cases h
    · cases h

/-- C3 (counterexample): a called strike with strikes = 0 (a count within the
stated bounds) that is judged a miss looks up strike index `strikes - 1 = -1`;
numpy wraps the negative index to the LAST strike row instead of raising, as
witnessed by a table whose entries record their strike row: the evaluation
returns row 2, and no IndexError-class condition occurs. -/
theorem claim_C3_counterexample :
    (strike_call_indices pitchCzeroStrikes 0).2.1 = -1
  ∧ delta_favor_zone rednpStrikeRow pitchCzeroStrikes true none (some 0)
      = .ok 2 := by
  exact ⟨rfl, rfl⟩

/-- C3 (amended): the evaluator has no clamping guard, but whenever a called
strike carries strikes ≥ 1 and a called ball carries balls ≥ 1 (which is how
the post-pitch counts of real decision pitches are recorded), all delta-table
indices are nonnegative and inside the strict [4][3][3][8] domain, the lookups
succeed without wrapping, and the zone evaluation cannot end in an
IndexError-class condition. -/
theorem claim_C3_amended (rednp : Fin 4 → Fin 3 → Fin 3 → Fin 8 → ℚ)
    (pitch : PlayEvents) (b : Bool) (r : Int)
    (hballs : 0 ≤ pitch.count.balls ∧ pitch.count.balls ≤ 3)
    (hstrikes : 0 ≤ pitch.count.strikes ∧ pitch.count.strikes ≤ 2)
    (houts : 0 ≤ pitch.count.outs ∧ pitch.count.outs ≤ 2)
    (hrun : 0 ≤ r ∧ r ≤ 7)
    (hC : pitch.details.code = some "C" → 1 ≤ pitch.count.strikes)
    (hB : pitch.details.code = some "B" → 1 ≤ pitch.count.balls) :
    (pitch.details.code = some "C" →
      0 ≤ (strike_call_indices pitch r).2.1 ∧
        ∃ q, tableLookup4 rednp (strike_call_indices pitch r) = .ok q)
  ∧ (pitch.details.code = some "B" →
      0 ≤ (ball_call_indices pitch r).1 ∧
        ∃ q, tableLookup4 rednp (ball_call_indices pitch r) = .ok q)
  ∧ delta_favor_zone rednp pitch b none (some r) ≠ .error .indexError := by
  have hstrikeOk : pitch.details.code = some "C" →
      0 ≤ (strike_call_indices pitch r).2.1 ∧
        ∃ q, tableLookup4 rednp (strike_call_indices pitch r) = .ok q := by
    intro hc
    have h1 := hC hc
    refine ⟨by simp only [strike_call_indices]; omega, ?_⟩
    simp only [tableLookup4, strike_call_indices]
    exact tableLookup_ok rednp _ _ _ _ ⟨by omega, by omega⟩ ⟨by omega, by omega⟩
      ⟨by omega, by omega⟩ ⟨by omega, by omega⟩
  have hballOk : pitch.details.code = some "B" →
      0 ≤ (ball_call_indices pitch r).1 ∧
        ∃ q, tableLookup4 rednp (ball_call_indices pitch r) = .ok q := by
    intro hbc
    have h1 := hB hbc
    refine ⟨by simp only [ball_call_indices]; omega, ?_⟩
    simp only [tableLookup4, ball_call_indices]
    exact tableLookup_ok rednp _ _ _ _ ⟨by omega, by omega⟩ ⟨by omega, by omega⟩
      ⟨by omega, by omega⟩ ⟨by omega, by omega⟩
  refine ⟨hstrikeOk, hballOk, ?_⟩
  show zoneEval rednp pitch b r ≠ .error .indexError
  unfold zoneEval
  cases hcc : (if pitch.details.code = some "C" ∨ pitch.details.code = some "B"
      then is_correct_call_zone_num pitch else .ok true) with
  | error e =>
    by_cases hor : pitch.details.code = some "C" ∨ pitch.details.code = some "B"
    · rw [if_pos hor] at hcc
      obtain ⟨m, hm⟩ := is_correct_call_zone_num_error pitch e hcc
      simp [hm]
    · rw [if_neg hor] at hcc
      cases hcc
  | ok correct =>
    cases correct with
    | true => simp
    | false =>
      by_cases hc : pitch.details.code = some "C"
      · obtain ⟨q, hq⟩ := (hstrikeOk hc).2
        simp [hc, hq]
      · by_cases hbc : pitch.details.code = some "B"
        · obtain ⟨q, hq⟩ := (hballOk hbc).2
          simp [hc, hbc, hq, Except.map]
        · simp [hc, hbc]

/-- C3 (witness): the spec §8 concrete scenario — a called strike at count
1-1 with 1 out and runners on first and second (encoding 3) — satisfies the
guard hypotheses and evaluates without an IndexError. -/
theorem claim_C3_amended_witness :
    delta_favor_zone rednpConst1 pitchScenario true none (some 3)
      ≠ .error .indexError :=
  (claim_C3_amended rednpConst1 pitchScenario true 3 (by norm_num [pitchScenario])
    (by norm_num [pitchScenario]) (by norm_num [pitchScenario])
    (by norm_num) (fun _ => by norm_num [pitchScenario])
    (fun _ => by norm_num [pitchScenario])).2.2

/-- C4 (counterexample): the zone-number strategy does not treat bad location
data as a non-decision.  On a called strike with `pitchData` missing it raises
(AttributeError) instead of returning 0; on a called strike whose location is
flagged invalid but whose zone number says outside (zone 11), it returns a
nonzero delta. -/
theorem claim_C4_counterexample :
    delta_favor_zone rednpConst1 pitchMissingData true none (some 0)
      = .error (.attributeError "NoneType object has no attribute zone")
  ∧ delta_favor_zone rednpConst1 pitchInvalidLoc true none (some 0) = .ok 1 := by
  exact ⟨rfl, rfl⟩

/-- C4 (amended): a pitch whose called code is not a ball/strike decision
yields 0 without raising under all three strategies; a pitch with missing or
invalid location yields 0 without raising under the buffer/distance and
Monte-Carlo strategies — but the zone-number strategy ignores location
validity entirely (see the counterexample). -/
theorem claim_C4_amended (rednp : Fin 4 → Fin 3 → Fin 3 → Fin 8 → ℚ)
    (draws : Fin 500 → ℚ × ℚ) (pitch : PlayEvents) (b : Bool) (r : Int) :
    (pitch.details.code ≠ some "C" → pitch.details.code ≠ some "B" →
      delta_favor_zone rednp pitch b none (some r) = .ok 0
      ∧ delta_favor_dist rednp pitch b none (some r) = .ok 0
      ∧ delta_favor_monte rednp draws pitch b none (some r) = .ok 0)
  ∧ (pitch.pitchData = none →
      delta_favor_dist rednp pitch b none (some r) = .ok 0
      ∧ delta_favor_monte rednp draws pitch b none (some r) = .ok 0)
  ∧ (∀ pd, pitch.pitchData = some pd → pd.coordinates.is_valid = false →
      delta_favor_dist rednp pitch b none (some r) = .ok 0
      ∧ delta_favor_monte rednp draws pitch b none (some r) = .ok 0) := by
  refine ⟨?_, ?_, ?_⟩
  · intro hC hB
    have hzone : delta_favor_zone rednp pitch b none (some r) = .ok 0 := by
      show zoneEval rednp pitch b r = .ok 0
      unfold zoneEval
      rw [if_neg (by simp [hC, hB])]
    refine ⟨hzone, ?_, ?_⟩
    · show distEval rednp pitch b r = .ok 0
      unfold distEval
      split
      · rfl
      · split
        · rfl
        · split
          · rfl
          · exact hzone
    · show monteEval rednp draws pitch b r = .ok 0
      unfold monteEval
      split
      · rfl
      · split
        · rfl
        · rw [if_neg (by simp [hC, hB])]
  · intro hpd
    constructor
    · show distEval rednp pitch b r = .ok 0
      simp [distEval, hpd]
    · show monteEval rednp draws pitch b r = .ok 0
      simp [monteEval, hpd]
  · intro pd hpd hv
    constructor
    · show distEval rednp pitch b r = .ok 0
      simp [distEval, hpd, hv]
    · show monteEval rednp draws pitch b r = .ok 0
      simp [monteEval, hpd, hv]

/-- C4 (witness): a non-decision pitch with no pitch data evaluates to 0
under all three strategies, and under the distance and Monte-Carlo
strategies again via the missing-location path. -/
theorem claim_C4_amended_witness :
    delta_favor_zone rednpConst1 pitchNoCallNoData true none (some 0) = .ok 0
  ∧ delta_favor_dist rednpConst1 pitchNoCallNoData true none (some 0) = .ok 0
  ∧ delta_favor_monte rednpConst1 drawsZero pitchNoCallNoData true none
      (some 0) = .ok 0 := by
  have h := claim_C4_amended rednpConst1 drawsZero pitchNoCallNoData true 0
  exact ⟨(h.1 (by simp [pitchNoCallNoData]) (by simp [pitchNoCallNoData])).1,
    (h.2.1 rfl).1, (h.2.1 rfl).2⟩

/-- C8 (counterexample): a called strike with zone number exactly 10 is
judged a CORRECT call by `_is_correct_call_zone_num` (the source tests
`zone > 10`, not `zone ≥ 10`), contradicting the claim that zone 10 counts
as outside the strike zone and the call as incorrect. -/
theorem claim_C8_counterexample :
    is_correct_call_zone_num pitchZone10 = .ok true := rfl

/-- C8 (amended): Strategy A judges a called strike incorrect exactly when
the zone number is strictly greater than 10, and a called ball incorrect
exactly when the zone number is in [1, 9]; a called strike with zone number
exactly 10 is judged correct. -/
theorem claim_C8_amended (pitch : PlayEvents) (pd : PitchData)
    (h : pitch.pitchData = some pd) :
    (pitch.details.code = some "C" →
      (is_correct_call_zone_num pitch = .ok false ↔ 10 < pd.zone))
  ∧ (pitch.details.code = some "B" →
      (is_correct_call_zone_num pitch = .ok false ↔ 1 ≤ pd.zone ∧ pd.zone ≤ 9))
  ∧ (pitch.details.code = some "C" → pd.zone = 10 →
      is_correct_call_zone_num pitch = .ok true) := by
  refine ⟨?_, ?_, ?_⟩
  · intro hc
    unfold is_correct_call_zone_num
    rw [if_pos hc, h]
    by_cases hz : pd.zone > 10
    · simp only [if_pos hz]
      simp [hz]
    · simp only [if_neg hz]
      simp [hz]
  · intro hb
    unfold is_correct_call_zone_num
    rw [if_neg (by simp [hb]), if_pos hb, h]
    by_cases hz : 1 ≤ pd.zone ∧ pd.zone ≤ 9
    · simp only [if_pos hz]
      simp [hz]
    · simp only [if_neg hz]
      simp [hz]
  · intro hc hz10
    unfold is_correct_call_zone_num
    rw [if_pos hc, h]
    simp only [if_neg (show ¬ pd.zone > 10 by omega)]

/-- C8 (witness): the amended classification at a concrete called strike with
zone number 11 — judged incorrect. -/
theorem claim_C8_amended_witness :
    is_correct_call_zone_num pitchScenario = .ok false :=
  ((claim_C8_amended pitchScenario ⟨farCoords, 11⟩ rfl).1 rfl).mpr (by norm_num)

/-- If any of the four edge-rectangle conditions of `_in_buffer_zone` holds,
the check succeeds. -/
theorem in_buffer_zone_of_rect (c : Coordinates)
    (h : ((c.PX_MIN - BUFFER_FEET ≤ c.pX ∧ c.pX ≤ c.PX_MIN + BUFFER_FEET) ∧
          (c.pZ_bot - BUFFER_FEET ≤ c.pZ ∧ c.pZ ≤ c.pZ_top + BUFFER_FEET)) ∨
         ((c.PX_MAX - BUFFER_FEET ≤ c.pX ∧ c.pX ≤ c.PX_MAX + BUFFER_FEET) ∧
          (c.pZ_bot - BUFFER_FEET ≤ c.pZ ∧ c.pZ ≤ c.pZ_top + BUFFER_FEET)) ∨
         ((c.pZ_top - BUFFER_FEET ≤ c.pZ ∧ c.pZ ≤ c.pZ_top + BUFFER_FEET) ∧
          (c.PX_MIN - BUFFER_FEET ≤ c.pX ∧ c.pX ≤ c.PX_MAX + BUFFER_FEET)) ∨
         ((c.pZ_bot - BUFFER_FEET ≤ c.pZ ∧ c.pZ ≤ c.pZ_bot + BUFFER_FEET) ∧
          (c.PX_MIN - BUFFER_FEET ≤ c.pX ∧ c.pX ≤ c.PX_MAX + BUFFER_FEET))) :
    in_buffer_zone c = true := by
  unfold in_buffer_zone
  split
  · rfl
  · split
    · rfl
    · split
      · rfl
      · split
        · rfl
        · tauto

/-- A pitch location strictly within `BUFFER_FEET` (Euclidean distance) of
some strike-zone edge satisfies the corresponding `_in_buffer_zone`
rectangle. -/
theorem in_buffer_zone_of_close (c : Coordinates)
    (h : strictlyWithinBufferOfEdge c) : in_buffer_zone c = true := by
  have hbuf : (0 : ℚ) < BUFFER_FEET := by norm_num [BUFFER_FEET, BUFFER_INCH]
  have hoZ0 : (0 : ℚ) ≤ overshoot c.pZ_bot c.pZ_top c.pZ := le_max_left _ _
  have hoZ1 : c.pZ_bot - c.pZ ≤ overshoot c.pZ_bot c.pZ_top c.pZ :=
    le_trans (le_max_left _ _) (le_max_right _ _)
  have hoZ2 : c.pZ - c.pZ_top ≤ overshoot c.pZ_bot c.pZ_top c.pZ :=
    le_trans (le_max_right _ _) (le_max_right _ _)
  have hoX0 : (0 : ℚ) ≤ overshoot c.PX_MIN c.PX_MAX c.pX := le_max_left _ _
  have hoX1 : c.PX_MIN - c.pX ≤ overshoot c.PX_MIN c.PX_MAX c.pX :=
    le_trans (le_max_left _ _) (le_max_right _ _)
  have hoX2 : c.pX - c.PX_MAX ≤ overshoot c.PX_MIN c.PX_MAX c.pX :=
    le_trans (le_max_right _ _) (le_max_right _ _)
  apply in_buffer_zone_of_rect
  rcases h with h | h | h | h
  · unfold distSqLeftEdge at h
    left
    refine ⟨⟨?_, ?_⟩, ?_, ?_⟩
    · nlinarith [sq_nonneg (c.pX - c.PX_MIN + BUFFER_FEET)]
    · nlinarith [sq_nonneg (c.pX - c.PX_MIN - BUFFER_FEET)]
    · nlinarith [sq_nonneg (c.pX - c.PX_MIN)]
    · nlinarith [sq_nonneg (c.pX - c.PX_MIN)]
  · unfold distSqRightEdge at h
    right; left
    refine ⟨⟨?_, ?_⟩, ?_, ?_⟩
    · nlinarith [sq_nonneg (c.pX - c.PX_MAX + BUFFER_FEET)]
    · nlinarith [sq_nonneg (c.pX - c.PX_MAX - BUFFER_FEET)]
    · nlinarith [sq_nonneg (c.pX - c.PX_MAX)]
    · nlinarith [sq_nonneg (c.pX - c.PX_MAX)]
  · unfold distSqTopEdge at h
    right; right; left
    refine ⟨⟨?_, ?_⟩, ?_, ?_⟩
    · nlinarith [sq_nonneg (c.pZ - c.pZ_top + BUFFER_FEET)]
    · nlinarith [sq_nonneg (c.pZ - c.pZ_top - BUFFER_FEET)]
    · nlinarith [sq_nonneg (c.pZ - c.pZ_top)]
    · nlinarith [sq_nonneg (c.pZ - c.pZ_top)]
  · unfold distSqBottomEdge at h
    right; right; right
    refine ⟨⟨?_, ?_⟩, ?_, ?_⟩
    · nlinarith [sq_nonneg (c.pZ - c.pZ_bot + BUFFER_FEET)]
    · nlinarith [sq_nonneg (c.pZ - c.pZ_bot - BUFFER_FEET)]
    · nlinarith [sq_nonneg (c.pZ - c.pZ_bot)]
    · nlinarith [sq_nonneg (c.pZ - c.pZ_bot)]

/-- C5: a pitch with present, valid location strictly within `BUFFER_FEET` of
some strike-zone edge makes `delta_favor_dist` return exactly 0, whatever the
call code, zone classification, half-inning flag and runner encoding. -/
theorem claim_C5_buffer_returns_zero (rednp : Fin 4 → Fin 3 → Fin 3 → Fin 8 → ℚ)
    (pitch : PlayEvents) (pd : PitchData)
    (hpd : pitch.pitchData = some pd) (hv : pd.coordinates.is_valid = true)
    (hclose : strictlyWithinBufferOfEdge pd.coordinates)
    (b : Bool) (r : Int) :
    delta_favor_dist rednp pitch b none (some r) = .ok 0 := by
  show distEval rednp pitch b r = .ok 0
  simp [distEval, hpd, hv, in_buffer_zone_of_close pd.coordinates hclose]

/-- C5 (witness): a called strike with zone number 11 located exactly on the
left zone edge (distance 0 < BUFFER_FEET) evaluates to 0 under the distance
strategy. -/
theorem claim_C5_witness :
    delta_favor_dist rednpConst1 pitchOnEdge true none (some 0) = .ok 0 :=
  claim_C5_buffer_returns_zero rednpConst1 pitchOnEdge ⟨onLeftEdgeCoords, 11⟩
    rfl rfl
    (Or.inl (by norm_num [distSqLeftEdge, overshoot, onLeftEdgeCoords,
      max_def, BUFFER_FEET, BUFFER_INCH]))
    true 0

/-- The far-above-the-zone fixture location is outside the grace band. -/
theorem in_buffer_far : in_buffer_zone farCoords = false := by
  norm_num [in_buffer_zone, farCoords, BUFFER_FEET, BUFFER_INCH]

/-- Outside the grace band (and with a present, valid location) the distance
evaluation reduces to the zone evaluation. -/
theorem distEval_eq_zone (rednp : Fin 4 → Fin 3 → Fin 3 → Fin 8 → ℚ)
    (pitch : PlayEvents) (b : Bool) (ri : Int) (pd : PitchData)
    (hpd : pitch.pitchData = some pd) (hv : pd.coordinates.is_valid = true)
    (hbz : in_buffer_zone pd.coordinates = false) :
    distEval rednp pitch b ri = zoneEval rednp pitch b ri := by
  simp [distEval, delta_favor_zone, hpd, hv, hbz]

/-- C6: for a pitch with present, valid location outside the grace band, the
buffer/distance strategy returns exactly the value of the zone-number strategy
on the same arguments, for every half-inning flag and runner encoding. -/
theorem claim_C6_dist_eq_zone_outside_buffer
    (rednp : Fin 4 → Fin 3 → Fin 3 → Fin 8 → ℚ)
    (pitch : PlayEvents) (pd : PitchData)
    (hpd : pitch.pitchData = some pd) (hv : pd.coordinates.is_valid = true)
    (hbz : in_buffer_zone pd.coordinates = false) (b : Bool) (r : Int) :
    delta_favor_dist rednp pitch b none (some r)
      = delta_favor_zone rednp pitch b none (some r) :=
  distEval_eq_zone rednp pitch b r pd hpd hv hbz

/-- C6 (witness): the two strategies agree at a concrete called strike far
from every zone edge. -/
theorem claim_C6_witness :
    delta_favor_dist rednpConst1 pitchScenario true none (some 3)
      = delta_favor_zone rednpConst1 pitchScenario true none (some 3) :=
  claim_C6_dist_eq_zone_outside_buffer rednpConst1 pitchScenario
    ⟨farCoords, 11⟩ rfl rfl in_buffer_far true 3

/-- The zone evaluation in the bottom half is the negation of the top half. -/
theorem zoneEval_negation (rednp : Fin 4 → Fin 3 → Fin 3 → Fin 8 → ℚ)
    (pitch : PlayEvents) (ri : Int) :
    zoneEval rednp pitch false ri = (zoneEval rednp pitch true ri).map Neg.neg := by
  cases hcc : (if pitch.details.code = some "C" ∨ pitch.details.code = some "B"
      then is_correct_call_zone_num pitch else .ok true) with
  | error e => simp [zoneEval, hcc, Except.map]
  | ok correct =>
    cases correct with
    | true => simp [zoneEval, hcc, Except.map]
    | false =>
      by_cases hc : pitch.details.code = some "C"
      · have hcc' : is_correct_call_zone_num pitch = .ok false := by
          rwa [if_pos (Or.inl hc)] at hcc
        cases hl : tableLookup4 rednp (strike_call_indices pitch ri) with
        | error e => simp [zoneEval, hcc', hc, hl, Except.map]
        | ok d => simp [zoneEval, hcc', hc, hl, Except.map]
      · by_cases hb : pitch.details.code = some "B"
        · have hcc' : is_correct_call_zone_num pitch = .ok false := by
            rwa [if_pos (Or.inr hb)] at hcc
          cases hl : tableLookup4 rednp (ball_call_indices pitch ri) with
          | error e => simp [zoneEval, hcc', hc, hb, hl, Except.map]
          | ok d => simp [zoneEval, hcc', hc, hb, hl, Except.map]
        · rw [if_neg (by simp [hc, hb])] at hcc
          simp at hcc

/-- The distance evaluation in the bottom half is the negation of the top
half. -/
theorem distEval_negation (rednp : Fin 4 → Fin 3 → Fin 3 → Fin 8 → ℚ)
    (pitch : PlayEvents) (ri : Int) :
    distEval rednp pitch false ri = (distEval rednp pitch true ri).map Neg.neg := by
  cases hpd : pitch.pitchData with
  | none => simp [distEval, hpd, Except.map]
  | some pd =>
    by_cases hv : pd.coordinates.is_valid = false
    · simp [distEval, hpd, hv, Except.map]
    · have hv' : pd.coordinates.is_valid = true := by
        simpa using hv
      by_cases hbz : in_buffer_zone pd.coordinates = true
      · simp [distEval, hpd, hv, hbz, Except.map]
      · have hbz' : in_buffer_zone pd.coordinates = false := by
          simpa using hbz
        rw [distEval_eq_zone rednp pitch false ri pd hpd hv' hbz',
            distEval_eq_zone rednp pitch true ri pd hpd hv' hbz']
        exact zoneEval_negation rednp pitch ri

/-- The Monte-Carlo evaluation in the bottom half is the negation of the top
half (for the same injected draws). -/
theorem monteEval_negation (rednp : Fin 4 → Fin 3 → Fin 3 → Fin 8 → ℚ)
    (draws : Fin 500 → ℚ × ℚ) (pitch : PlayEvents) (ri : Int) :
    monteEval rednp draws pitch false ri
      = (monteEval rednp draws pitch true ri).map Neg.neg := by
  cases hpd : pitch.pitchData with
  | none => simp [monteEval, hpd, Except.map]
  | some pd =>
    by_cases hv : pd.coordinates.is_valid = false
    · simp [monteEval, hpd, hv, Except.map]
    · cases hcc : (if pitch.details.code = some "C" ∨ pitch.details.code = some "B"
          then is_correct_call_monte_carlo draws pitch else .ok true) with
      | error e => simp [monteEval, hpd, hv, hcc, Except.map]
      | ok correct =>
        cases correct with
        | true => simp [monteEval, hpd, hv, hcc, Except.map]
        | false =>
          by_cases hc : pitch.details.code = some "C"
          · have hcc' : is_correct_call_monte_carlo draws pitch = .ok false := by
              rwa [if_pos (Or.inl hc)] at hcc
            cases hl : tableLookup4 rednp (strike_call_indices pitch ri) with
            | error e => simp [monteEval, hpd, hv, hcc', hc, hl, Except.map]
            | ok d => simp [monteEval, hpd, hv, hcc', hc, hl, Except.map]
          · by_cases hb : pitch.details.code = some "B"
            · have hcc' : is_correct_call_monte_carlo draws pitch = .ok false := by
                rwa [if_pos (Or.inr hb)] at hcc
              cases hl : tableLookup4 rednp (ball_call_indices pitch ri) with
              | error e => simp [monteEval, hpd, hv, hcc', hc, hb, hl, Except.map]
              | ok d => simp [monteEval, hpd, hv, hcc', hc, hb, hl, Except.map]
            · rw [if_neg (by simp [hc, hb])] at hcc
              simp at hcc

/-- C7: for every pitch and runner-state encoding, each strategy's value with
`isTopInning = false` is the exact negation of its value with
`isTopInning = true` (errors are preserved; 0 negates to 0, covering correct
and non-decision pitches). -/
theorem claim_C7_sign_negation (rednp : Fin 4 → Fin 3 → Fin 3 → Fin 8 → ℚ)
    (draws : Fin 500 → ℚ × ℚ) (pitch : PlayEvents) (r : Int) :
    delta_favor_zone rednp pitch false none (some r)
      = (delta_favor_zone rednp pitch true none (some r)).map Neg.neg
  ∧ delta_favor_dist rednp pitch false none (some r)
      = (delta_favor_dist rednp pitch true none (some r)).map Neg.neg
  ∧ delta_favor_monte rednp draws pitch false none (some r)
      = (delta_favor_monte rednp draws pitch true none (some r)).map Neg.neg :=
  ⟨zoneEval_negation rednp pitch r, distEval_negation rednp pitch r,
    monteEval_negation rednp draws pitch r⟩

/-- `setattr` at the written key. -/
theorem setK_same {V : Type} (s : SB V) (k : String) (v : Option V) :
    setK s k v k = v := by
  simp [setK]

/-- `setattr` leaves other keys unchanged. -/
theorem setK_other {V : Type} (s : SB V) (k k' : String) (v : Option V)
    (h : k' ≠ k) : setK s k v k' = s k' := by
  simp [setK, h]

/-- One diff iteration leaves the mutated-self component unchanged at other
keys. -/
theorem diffStep_fst_other {V : Type} [DecidableEq V] (new_game : SB V)
    (st : SB V × SB V × Bool) (a k : String) (h : k ≠ a) :
    (diffStep new_game st a).1 k = st.1 k := by
  unfold diffStep
  split
  · exact setK_other _ _ _ _ h
  · rfl

/-- One diff iteration leaves the differences component unchanged at other
keys. -/
theorem diffStep_diff_other {V : Type} [DecidableEq V] (new_game : SB V)
    (st : SB V × SB V × Bool) (a k : String) (h : k ≠ a) :
    (diffStep new_game st a).2.1 k = st.2.1 k := by
  unfold diffStep
  split
  · exact setK_other _ _ _ _ h
  · exact setK_other _ _ _ _ h

/-- The diff loop leaves every key outside the key list untouched. -/
theorem diffLoop_not_mem {V : Type} [DecidableEq V] (new_game : SB V)
    (ks : List String) (k : String) :
    ∀ st : SB V × SB V × Bool, k ∉ ks →
      (ks.foldl (diffStep new_game) st).1 k = st.1 k
      ∧ (ks.foldl (diffStep new_game) st).2.1 k = st.2.1 k := by
  induction ks with
  | nil => intro st _; exact ⟨rfl, rfl⟩
  | cons a t ih =>
    intro st hk
    have hka : k ≠ a := fun h => hk (h ▸ List.mem_cons_self a t)
    have hkt : k ∉ t := fun h => hk (List.mem_cons_of_mem a h)
    rw [List.foldl_cons]
    have h1 := ih (diffStep new_game st a) hkt
    exact ⟨h1.1.trans (diffStep_fst_other new_game st a k hka),
           h1.2.trans (diffStep_diff_other new_game st a k hka)⟩

/-- After the diff loop over a duplicate-free key list, every listed key of
the mutated self holds the new value, and the differences component holds the
new value when the values differed and Python None otherwise. -/
theorem diffLoop_mem {V : Type} [DecidableEq V] (new_game : SB V)
    (ks : List String) (k : String) :
    ∀ st : SB V × SB V × Bool, ks.Nodup → k ∈ ks →
      (ks.foldl (diffStep new_game) st).1 k = new_game k
      ∧ (ks.foldl (diffStep new_game) st).2.1 k
          = (if st.1 k ≠ new_game k then new_game k else none) := by
  induction ks with
  | nil => intro st _ hk; cases hk
  | cons a t ih =>
    intro st hnd hk
    have hat : a ∉ t := (List.nodup_cons.mp hnd).1
    have hnd' : t.Nodup := (List.nodup_cons.mp hnd).2
    rw [List.foldl_cons]
    rcases List.mem_cons.mp hk with rfl | hkt
    · have hrest := diffLoop_not_mem new_game t k (diffStep new_game st k) hat
      rw [hrest.1, hrest.2]
      by_cases hch : st.1 k ≠ new_game k
      · constructor
        · unfold diffStep
          rw [if_pos hch]
          exact setK_same _ _ _
        · unfold diffStep
          rw [if_pos hch, if_pos hch]
          exact setK_same _ _ _
      · constructor
        · unfold diffStep
          rw [if_neg hch]
          push_neg at hch
          exact hch
        · unfold diffStep
          rw [if_neg hch, if_neg hch]
          exact setK_same _ _ _
    · have hka : k ≠ a := fun he => hat (he ▸ hkt)
      have hih := ih (diffStep new_game st a) hnd' hkt
      refine ⟨hih.1, ?_⟩
      rw [hih.2, diffStep_fst_other new_game st a k hka]

/-- The diff loop sets the change flag exactly when it was already set or some
listed key differs between the starting self and the new snapshot. -/
theorem diffLoop_flag {V : Type} [DecidableEq V] (new_game : SB V)
    (ks : List String) :
    ∀ st : SB V × SB V × Bool, ks.Nodup →
      ((ks.foldl (diffStep new_game) st).2.2 = true ↔
        st.2.2 = true ∨ ∃ k ∈ ks, st.1 k ≠ new_game k) := by
  induction ks with
  | nil =>
    intro st _
    simp
  | cons a t ih =>
    intro st hnd
    have hat : a ∉ t := (List.nodup_cons.mp hnd).1
    have hnd' : t.Nodup := (List.nodup_cons.mp hnd).2
    rw [List.foldl_cons, ih (diffStep new_game st a) hnd']
    constructor
    · rintro (hf | ⟨k, hk, hne⟩)
      · by_cases hch : st.1 a ≠ new_game a
        · exact Or.inr ⟨a, List.mem_cons_self a t, hch⟩
        · left
          unfold diffStep at hf
          rwa [if_neg hch] at hf
      · have hka : k ≠ a := fun he => hat (he ▸ hk)
        rw [diffStep_fst_other new_game st a k hka] at hne
        exact Or.inr ⟨k, List.mem_cons_of_mem a hk, hne⟩
    · rintro (hf | ⟨k, hk, hne⟩)
      · left
        unfold diffStep
        split
        · rfl
        · exact hf
      · rcases List.mem_cons.mp hk with rfl | hkt
        · left
          unfold diffStep
          rw [if_pos hne]
        · have hka : k ≠ a := fun he => hat (he ▸ hkt)
          right
          refine ⟨k, hkt, ?_⟩
          rwa [diffStep_fst_other new_game st a k hka]

/-- A key-value pair produced by the `to_dict` fold comes from the
accumulator or from a listed key holding that value. -/
theorem to_dict_aux {V : Type} (s : SB V) :
    ∀ (ks : List String) (acc : List (String × V)) (k : String) (v : V),
      (k, v) ∈ ks.foldl (fun d k' =>
        match s k' with
        | some w => d ++ [(k', w)]
        | none => d) acc →
      (k, v) ∈ acc ∨ (k ∈ ks ∧ s k = some v) := by
  intro ks
  induction ks with
  | nil => intro acc k v h; exact Or.inl h
  | cons a t ih =>
    intro acc k v h
    rw [List.foldl_cons] at h
    rcases ih _ k v h with h' | ⟨hk, hv⟩
    · cases hsa : s a with
      | none =>
        rw [hsa] at h'
        exact Or.inl h'
      | some w =>
        rw [hsa] at h'
        rcases List.mem_append.mp h' with h'' | h''
        · exact Or.inl h''
        · have h3 := List.mem_singleton.mp h''
          have hk : k = a := congrArg Prod.fst h3
          have hv : v = w := congrArg Prod.snd h3
          subst hk
          subst hv
          exact Or.inr ⟨List.mem_cons_self k t, hsa⟩
    · exact Or.inr ⟨List.mem_cons_of_mem a hk, hv⟩

/-- Membership in `to_dict` forces the snapshot to hold that value. -/
theorem to_dict_mem {V : Type} (s : SB V) (k : String) (v : V)
    (h : (k, v) ∈ to_dict s) : k ∈ sbKeys ∧ s k = some v := by
  unfold to_dict at h
  rcases to_dict_aux s sbKeys [] k v h with h' | h'
  · cases h'
  · exact h'

/-- C9: over the fixed 18-key schema, `update_and_return_new` (with the
freshly fetched snapshot passed in) reports a change exactly when some schema
field differs; the mutated self agrees with the new snapshot on every schema
field; the differences snapshot carries the new value on changed fields and
Python None on unchanged ones (which `to_dict` then omits); and diffing equal
snapshots yields no change and an all-None differences record. -/
theorem claim_C9_diff_correct {V : Type} [DecidableEq V]
    (self new_game : SB V) :
    ((update_and_return_new self new_game).2.2 = true ↔
      ∃ k ∈ sbKeys, self k ≠ new_game k)
  ∧ (∀ k ∈ sbKeys, (update_and_return_new self new_game).1 k = new_game k)
  ∧ (∀ k ∈ sbKeys, (update_and_return_new self new_game).2.1 k
      = if self k ≠ new_game k then new_game k else none)
  ∧ ((∀ k ∈ sbKeys, self k = new_game k) →
      (update_and_return_new self new_game).2.2 = false
      ∧ ∀ k ∈ sbKeys, (update_and_return_new self new_game).2.1 k = none)
  ∧ (∀ k ∈ sbKeys, self k = new_game k →
      ∀ v, (k, v) ∉ to_dict (update_and_return_new self new_game).2.1) := by
  have hnd : sbKeys.Nodup := by decide
  have hflag := diffLoop_flag new_game sbKeys (self, self, false) hnd
  have hmem := fun k hk => diffLoop_mem new_game sbKeys k (self, self, false) hnd hk
  have hflag' : (update_and_return_new self new_game).2.2 = true ↔
      ∃ k ∈ sbKeys, self k ≠ new_game k := by
    unfold update_and_return_new
    rw [hflag]
    simp
  have hdiff : ∀ k ∈ sbKeys, (update_and_return_new self new_game).2.1 k
      = if self k ≠ new_game k then new_game k else none :=
    fun k hk => (hmem k hk).2
  refine ⟨hflag', fun k hk => (hmem k hk).1, hdiff, ?_, ?_⟩
  · intro hsame
    constructor
    · by_contra hne
      have ht : (update_and_return_new self new_game).2.2 = true := by
        cases hb : (update_and_return_new self new_game).2.2 with
        | true => rfl
        | false => exact absurd hb hne
      obtain ⟨k, hk, hkne⟩ := hflag'.mp ht
      exact hkne (hsame k hk)
    · intro k hk
      rw [hdiff k hk, if_neg (by simpa using hsame k hk)]
  · intro k hk hkeq v hmemd
    have h2 := (to_dict_mem _ k v hmemd).2
    rw [hdiff k hk, if_neg (by simpa using hkeq)] at h2
    cases h2

/-- A snapshot fixture for the spec §8 diff scenario (inning 3, 1 out,
all other fields 0). -/
def snapA : SB Int :=
  fun k => if k = "outs" then some 1 else if k = "inning" then some 3 else some 0

/-- The same snapshot with 2 outs. -/
def snapB : SB Int :=
  fun k => if k = "outs" then some 2 else if k = "inning" then some 3 else some 0

/-- C9 (witness): diffing the spec §8 scenario snapshots — equal except for
outs — reports a change, carries the new outs value, and nulls the unchanged
inning field. -/
theorem claim_C9_witness :
    (update_and_return_new snapA snapB).2.2 = true
  ∧ (update_and_return_new snapA snapB).2.1 "outs" = some 2
  ∧ (update_and_return_new snapA snapB).2.1 "inning" = none := by
  have h := claim_C9_diff_correct snapA snapB
  refine ⟨h.1.mpr ⟨"outs", by decide, by decide⟩, ?_, ?_⟩
  · rw [h.2.2.1 "outs" (by decide)]
    decide
  · rw [h.2.2.1 "inning" (by decide)]
    decide

/-- The inner pitch loop, characterised against its context list: when every
per-pitch distance evaluation succeeds with value `dlt c`, the loop returns
the sum of the nonzero deltas and the chronological subsequence of pitches
with nonzero delta. -/
theorem evalPitches_spec (rednp : Fin 4 → Fin 3 → Fin 3 → Fin 8 → ℚ)
    (r : Runners) (isTop : Bool) (events : List PlayEvents)
    (dlt : PlayEvents × Bool × Runners → ℚ) :
    ∀ (idxs : List Nat) (here : List (PlayEvents × Bool × Runners)),
      ctxList events isTop r idxs = some here →
      (∀ c ∈ here,
        delta_favor_dist rednp c.1 c.2.1 (some c.2.2) none = .ok (dlt c)) →
      evalPitches rednp r isTop events idxs =
        .ok (((here.filter fun c => decide (dlt c ≠ 0)).map dlt).sum,
             (here.filter fun c => decide (dlt c ≠ 0)).map (fun c => c.1)) := by
  intro idxs
  induction idxs with
  | nil =>
    intro here hctx hok
    simp only [ctxList] at hctx
    injection hctx with hctx
    subst hctx
    simp [evalPitches]
  | cons i rest ih =>
    intro here hctx hok
    simp only [ctxList] at hctx
    cases hei : events[i]? with
    | none =>
      rw [hei] at hctx
      simp at hctx
    | some p =>
      rw [hei] at hctx
      cases hrest : ctxList events isTop r rest with
      | none =>
        rw [hrest] at hctx
        simp at hctx
      | some l =>
        rw [hrest] at hctx
        simp only [] at hctx
        injection hctx with hctx
        subst hctx
        have hok_head := hok (p, isTop, r) (List.mem_cons_self _ _)
        have hok_tail : ∀ c ∈ l,
            delta_favor_dist rednp c.1 c.2.1 (some c.2.2) none = .ok (dlt c) :=
          fun c hc => hok c (List.mem_cons_of_mem _ hc)
        have ihl := ih l hrest hok_tail
        by_cases hd : dlt (p, isTop, r) ≠ 0
        · simp only [evalPitches, hei, hok_head, ihl, if_pos hd,
            List.filter_cons, List.map_cons, List.sum_cons]
          simp [hd]
        · simp only [evalPitches, hei, hok_head, ihl, if_neg hd,
            List.filter_cons]
          simp [hd]

/-- The at-bat loop of `find_missed_calls`, characterised against the pitch
stream of the game. -/
theorem fmcGo_spec (rednp : Fin 4 → Fin 3 → Fin 3 → Fin 8 → ℚ)
    (nb eb : Runners → AllPlays → Runners)
    (dlt : PlayEvents × Bool × Runners → ℚ) :
    ∀ (plays : List AllPlays) (r : Runners)
      (ctxs : List (PlayEvents × Bool × Runners)),
      pitchStream nb eb r plays = some ctxs →
      (∀ c ∈ ctxs,
        delta_favor_dist rednp c.1 c.2.1 (some c.2.2) none = .ok (dlt c)) →
      fmcGo rednp nb eb r plays =
        .ok (((ctxs.filter fun c => decide (dlt c ≠ 0)).map dlt).sum,
             (ctxs.filter fun c => decide (dlt c ≠ 0)).map (fun c => c.1)) := by
  intro plays
  induction plays with
  | nil =>
    intro r ctxs hstream hok
    simp only [pitchStream] at hstream
    injection hstream with hstream
    subst hstream
    simp [fmcGo]
  | cons ab rest ih =>
    intro r ctxs hstream hok
    simp only [pitchStream] at hstream
    cases hhere : ctxList ab.playEvents ab.isTopInning (nb r ab) ab.pitchIndex with
    | none =>
      rw [hhere] at hstream
      simp at hstream
    | some here =>
      rw [hhere] at hstream
      cases hthere : pitchStream nb eb (eb (nb r ab) ab) rest with
      | none =>
        rw [hthere] at hstream
        simp at hstream
      | some there =>
        rw [hthere] at hstream
        simp only [] at hstream
        injection hstream with hstream
        subst hstream
        have hok_here : ∀ c ∈ here,
            delta_favor_dist rednp c.1 c.2.1 (some c.2.2) none = .ok (dlt c) :=
          fun c hc => hok c (List.mem_append.mpr (Or.inl hc))
        have hok_there : ∀ c ∈ there,
            delta_favor_dist rednp c.1 c.2.1 (some c.2.2) none = .ok (dlt c) :=
          fun c hc => hok c (List.mem_append.mpr (Or.inr hc))
        have heval := evalPitches_spec rednp (nb r ab) ab.isTopInning
          ab.playEvents dlt ab.pitchIndex here hhere hok_here
        have hrest := ih (eb (nb r ab) ab) there hthere hok_there
        simp only [fmcGo, heval, hrest]
        simp [List.filter_append]

/-- C10: `find_missed_calls` hard-codes the buffer/distance strategy (there is
no strategy parameter, and the zone-number / Monte-Carlo evaluators appear
nowhere in the loop body); whenever every per-pitch distance evaluation
succeeds with value `dlt c` over the game's pitch stream, it returns exactly
(number of nonzero-delta pitches, sum of those deltas, the chronological
subsequence of those pitches). -/
theorem claim_C10_aggregator (rednp : Fin 4 → Fin 3 → Fin 3 → Fin 8 → ℚ)
    (nb eb : Runners → AllPlays → Runners) (plays : List AllPlays)
    (ctxs : List (PlayEvents × Bool × Runners))
    (hstream : pitchStream nb eb ⟨false, false, false⟩ plays = some ctxs)
    (dlt : PlayEvents × Bool × Runners → ℚ)
    (hok : ∀ c ∈ ctxs,
      delta_favor_dist rednp c.1 c.2.1 (some c.2.2) none = .ok (dlt c)) :
    find_missed_calls rednp nb eb plays =
      .ok ((ctxs.filter fun c => decide (dlt c ≠ 0)).length,
           ((ctxs.filter fun c => decide (dlt c ≠ 0)).map dlt).sum,
           (ctxs.filter fun c => decide (dlt c ≠ 0)).map (fun c => c.1)) := by
  have h := fmcGo_spec rednp nb eb dlt plays ⟨false, false, false⟩ ctxs hstream hok
  unfold find_missed_calls
  rw [h]
  simp

/-- A one-at-bat game whose only pitch is a non-decision pitch. -/
def atBatNoCall : AllPlays := ⟨true, [0], [pitchNoCode]⟩

/-- C10 (witness): on a one-pitch game whose pitch is a non-decision, the
aggregator returns zero missed calls, zero favor, and an empty list. -/
theorem claim_C10_witness :
    find_missed_calls rednpConst1 (fun r _ => r) (fun r _ => r) [atBatNoCall]
      = .ok (0, 0, []) := by
  have hdist : delta_favor_dist rednpConst1 pitchNoCode true
      (some runnersEmpty) none = .ok 0 := by
    simp [delta_favor_dist, distEval, delta_favor_zone, zoneEval,
      is_correct_call_zone_num, pitchNoCode, farCoords, in_buffer_far]
  have h := claim_C10_aggregator rednpConst1 (fun r _ => r) (fun r _ => r)
    [atBatNoCall] [(pitchNoCode, true, runnersEmpty)] rfl (fun _ => 0)
    (by
      intro c hc
      simp only [List.mem_singleton] at hc
      subst hc
      exact hdist)
  simpa using h
